import Mathlib

/-!
Verification of `src/system/mutation_fuzzer.py` (a mutation-based fuzzer with
SQL-aware operators) against its design specification.

Modelling conventions:
* a Python `str` is a `List Char` (`Str` below);
* every call to the ambient random source is an explicit argument of the
  embedded function, universally quantified in the theorems; the argument
  ranges over exactly the values the corresponding draw can produce
  (`random.randint(a, b)` gives `a ≤ x ≤ b`, `random.choice(l)` on a
  non-empty `l` gives an index `< l.length`);
* `random.choice` on an empty list raises `IndexError`; a raising call is
  modelled as `Option.none`;
* `self.population = self.seed` in `reset` binds both attribute names to the
  one list object, so a later `self.population.append(...)` is observable
  through `self.seed` as well; the embedded state carries both fields and the
  embedded `add_seed` appends to both, which is exactly the heap behaviour of
  the source.
-/

/-- A Python string, as a list of characters. -/
abbrev Str := List Char

/-- The single-quote character `'`. -/
def squote : Char := Char.ofNat 39

/-! ### Tokenizer (`_tok` / `_unt`)

The source calls `_tok` and `_unt` but their definitions are not part of
`src/`; they are modelled from the spec, §4.1: `_tok` splits a string into
maximal runs of whitespace and maximal runs of non-whitespace words, with
single-quoted string literals kept as single tokens even when they contain
whitespace, and `_unt` concatenates token texts in order. -/

/-- Scanner mode: inside a whitespace run, inside a word, or inside a
single-quoted literal. -/
inductive TMode where
  | ws
  | word
  | quo
deriving DecidableEq

/-- Scanner state: emitted tokens, the token being built, and the mode
(`none` before the first character and right after a literal closes). -/
structure TkSt where
  done : List Str
  cur : Str
  mode : Option TMode

/-- Modelled from the spec: one scanner step of `_tok` over a character. -/
def tokStep (st : TkSt) (c : Char) : TkSt :=
  match st.mode with
  | none =>
    if c.isWhitespace then ⟨st.done, [c], some TMode.ws⟩
    else if c = squote then ⟨st.done, [c], some TMode.quo⟩
    else ⟨st.done, [c], some TMode.word⟩
  | some TMode.ws =>
    if c.isWhitespace then ⟨st.done, st.cur ++ [c], some TMode.ws⟩
    else if c = squote then ⟨st.done ++ [st.cur], [c], some TMode.quo⟩
    else ⟨st.done ++ [st.cur], [c], some TMode.word⟩
  | some TMode.word =>
    if c.isWhitespace then ⟨st.done ++ [st.cur], [c], some TMode.ws⟩
    else if c = squote then ⟨st.done ++ [st.cur], [c], some TMode.quo⟩
    else ⟨st.done, st.cur ++ [c], some TMode.word⟩
  | some TMode.quo =>
    if c = squote then ⟨st.done ++ [st.cur ++ [c]], [], none⟩
    else ⟨st.done, st.cur ++ [c], some TMode.quo⟩

/-- Emit the trailing partial token, if any. -/
def tokFlush (st : TkSt) : List Str :=
  if st.cur = [] then st.done else st.done ++ [st.cur]

/-- Modelled from the spec: `_tok` splits a string into maximal whitespace
runs and maximal words, with quoted literals as single tokens. -/
def _tok (s : Str) : List Str :=
  tokFlush (s.foldl tokStep ⟨[], [], none⟩)

/-- Modelled from the spec: `_unt` concatenates the token texts in order,
adding and removing nothing. -/
def _unt (ts : List Str) : Str := ts.flatten

/-! ### Generic mutators -/

/-- `delete_random_character`: `pos` is the draw `random.randint(0, len(s)-1)`. -/
def delete_random_character (s : Str) (pos : Nat) : Str :=
  if s = [] then s else s.take pos ++ s.drop (pos + 1)

/-- `insert_random_character`: `pos` is `random.randint(0, len(s))` and
`code` is `random.randrange(32, 127)`. -/
def insert_random_character (s : Str) (pos : Nat) (code : Nat) : Str :=
  s.take pos ++ Char.ofNat code :: s.drop pos

/-- `flip_random_character`: `pos` is `random.randint(0, len(s)-1)` and
`bit` is `random.randint(0, 6)`; the character at `pos` has its code
XORed with `1 <<< bit`. -/
def flip_random_character (s : Str) (pos : Nat) (bit : Nat) : Str :=
  if s = [] then s
  else
    s.take pos ++ Char.ofNat ((s.getD pos (Char.ofNat 0)).toNat ^^^ (1 <<< bit))
      :: s.drop (pos + 1)

/-! ### SQL-aware mutators -/

/-- Modelled from the spec: `_SQL_KW`, the fixed case-insensitive SQL keyword
set; the spec (§3, SQL Keyword Set) lists SELECT, WHERE, JOIN, UNION, DROP,
ORDER, GROUP, AND, OR as its members. -/
def _SQL_KW : List Str :=
  ["SELECT", "WHERE", "JOIN", "UNION", "DROP", "ORDER", "GROUP", "AND", "OR"].map
    String.data

/-- The boundary-value replacement pool of `replace_sql_token`. -/
def _BOUNDARY : List Str :=
  ["0", "-1", "1", "2147483647", "-2147483648", "9223372036854775807",
    "-9223372036854775808"].map String.data

/-- The suffix pool of the identifier branch of `replace_sql_token`. -/
def _SUFFIXES : List Str := ["_x", "__", "0"].map String.data

/-- Python `t.upper()` (ASCII). -/
def pyUpper (t : Str) : Str := t.map Char.toUpper

/-- Python `t.lower()` (ASCII). -/
def pyLower (t : Str) : Str := t.map Char.toLower

/-- Python `t.isspace()`: non-empty and all whitespace. -/
def pyIsSpace (t : Str) : Bool := !t.isEmpty && t.all Char.isWhitespace

/-- Python `t.isupper()` (ASCII): has a cased character and no lowercase one. -/
def pyIsUpper (t : Str) : Bool := t.any Char.isAlpha && t.all (fun c => !c.isLower)

/-- Python `t.islower()` (ASCII): has a cased character and no uppercase one. -/
def pyIsLower (t : Str) : Bool := t.any Char.isAlpha && t.all (fun c => !c.isUpper)

/-- Python `inner.replace("a", "@", 1)`: replace the first occurrence only. -/
def replaceFirst (t : Str) (a b : Char) : Str :=
  match t with
  | [] => []
  | c :: rest => if c = a then b :: rest else c :: replaceFirst rest a b

/-- `[i for i,t in enumerate(ts) if not t.isspace()]`. -/
def nonWsIndices (ts : List Str) : List Nat :=
  (ts.enum.filter (fun it => !pyIsSpace it.2)).map (fun it => it.1)

/-- `[i for i,t in enumerate(ts) if not t.isspace() and t.upper() in _SQL_KW]`. -/
def kwIndices (ts : List Str) : List Nat :=
  (ts.enum.filter (fun it => !pyIsSpace it.2 && _SQL_KW.contains (pyUpper it.2))).map
    (fun it => it.1)

/-- Python `list.insert(pos, a)` for a non-negative `pos` (a `pos` past the
end appends, as in Python). -/
def pyInsert (l : List α) (pos : Nat) (a : α) : List α :=
  l.take pos ++ a :: l.drop pos

/-- The random draws a single `replace_sql_token` call can consume: the
keyword pick `random.choice(_SQL_KW)` as an index, the boundary pick as an
index, the coin `random.random() < 0.5`, the repetition count
`random.randint(1, 30)`, and the suffix pick as an index. -/
structure RDraw where
  kwIdx : Nat
  numIdx : Nat
  coin : Bool
  rep : Nat
  sufIdx : Nat

/-- `replace_sql_token`: `j` is the draw `random.choice(idx)` as an index into
`idx` (always in range in the source, since `random.choice` is only reached
when `idx` is non-empty). -/
def replace_sql_token (s : Str) (j : Nat) (d : RDraw) : Str :=
  let ts := _tok s
  let idx := nonWsIndices ts
  match idx.get? j with
  | none => s
  | some i =>
    let t := ts.getD i []
    let newT :=
      if _SQL_KW.contains (pyUpper t) then
        -- keyword swap: `alt = random.choice(_SQL_KW)` (the original keyword
        -- is not excluded from the pool)
        let alt := _SQL_KW.getD d.kwIdx []
        if pyIsUpper t then alt else pyLower alt
      else if !t.isEmpty && t.all Char.isDigit then
        -- `re.fullmatch(r"\d+", t)`
        _BOUNDARY.getD d.numIdx []
      else if t.head? = some squote ∧ t.getLast? = some squote then
        -- string literal perturbation
        let inner := (t.drop 1).dropLast
        let inner2 :=
          if d.coin then inner ++ List.replicate d.rep 'A'
          else if inner.contains 'a' then replaceFirst inner 'a' '@'
          else inner ++ ['!']
        squote :: (inner2 ++ [squote])
      else
        -- identifier / other
        if d.coin then t ++ _SUFFIXES.getD d.sufIdx []
        else if pyIsLower t then pyUpper t else pyLower t
    _unt (ts.set i newT)

/-- `duplicate_sql_clause`: `j` is `random.choice(idx)` as an index into
`idx`, and `insPos` is `random.randint(0, len(ts))`. -/
def duplicate_sql_clause (s : Str) (j : Nat) (insPos : Nat) : Str :=
  let ts := _tok s
  let idx := kwIndices ts
  match idx.get? j with
  | none => s
  | some i =>
    let t := ts.getD i []
    _unt (pyInsert ts insPos (t ++ [' ']))

/-- `shuffle_sql_tokens`: `start` is `random.randint(0, len(idx)-2)`, `e` is
`random.randint(start+1, len(idx)-1)`, and `random.shuffle(segment)` is
modelled by applying the drawn permutation `perm` (as indices into the
segment) to the segment. -/
def shuffle_sql_tokens (s : Str) (start e : Nat) (perm : List Nat) : Str :=
  let ts := _tok s
  let idx := nonWsIndices ts
  if idx.length < 2 then s
  else
    let segIdx := (idx.drop start).take (e + 1 - start)
    let segment := segIdx.map (fun i => ts.getD i [])
    let shuffled := perm.map (fun k => segment.getD k [])
    _unt ((segIdx.zip shuffled).foldl (fun acc kv => acc.set kv.1 kv.2) ts)

/-! ### Mutation engine / corpus -/

/-- `random.choice(xs)`: raises `IndexError` (modelled as `none`) exactly when
`xs` is empty; otherwise the draw `i` is an index `< xs.length`. -/
def randomChoice (xs : List α) (i : Nat) : Option α := xs.get? i

/-- One draw of `MyMutationFuzzer.mutate`: which of the three generic
mutators `random.choice(mutators)` picked, with that mutator's own draws. -/
inductive MutDraw where
  | del (pos : Nat)
  | ins (pos : Nat) (code : Nat)
  | flip (pos : Nat) (bit : Nat)

/-- `MyMutationFuzzer.mutate`: apply one randomly chosen generic mutator
(the registry holds exactly `delete_random_character`,
`insert_random_character`, `flip_random_character`). -/
def mutate (inp : Str) (d : MutDraw) : Str :=
  match d with
  | MutDraw.del pos => delete_random_character inp pos
  | MutDraw.ins pos code => insert_random_character inp pos code
  | MutDraw.flip pos bit => flip_random_character inp pos bit

/-- The attribute state of a `MyMutationFuzzer` object. In the source,
`reset` runs `self.population = self.seed` without copying, so both
attributes name the same list object forever after; the embedded operations
keep the two fields pointwise equal the way the shared heap cell does. -/
structure MyMutationFuzzer where
  seed : List Str
  min_mutations : Nat
  max_mutations : Nat
  population : List Str
  seed_index : Nat
deriving DecidableEq

/-- `reset`: set the population to the seed list (the same object) and the
cursor to 0. -/
def MyMutationFuzzer.reset (st : MyMutationFuzzer) : MyMutationFuzzer :=
  { st with population := st.seed, seed_index := 0 }

/-- `__init__(seed, min_mutations, max_mutations)`: store the three arguments
and call `reset`. The constructor performs no validation of any kind. -/
def MyMutationFuzzer.init (seed : List Str) (min_mutations max_mutations : Nat) :
    MyMutationFuzzer :=
  MyMutationFuzzer.reset ⟨seed, min_mutations, max_mutations, [], 0⟩

/-- The constructor with the source's default arguments
`min_mutations = 2`, `max_mutations = 10`. -/
def MyMutationFuzzer.initDefault (seed : List Str) : MyMutationFuzzer :=
  MyMutationFuzzer.init seed 2 10

/-- `create_candidate`: `popIdx` is the draw of `random.choice(self.population)`
and `draws` is the sequence of mutation draws; its length is the draw
`trials = random.randint(self.min_mutations, self.max_mutations)`. The result
is `none` exactly when `random.choice` raises on an empty population. -/
def MyMutationFuzzer.create_candidate (st : MyMutationFuzzer) (popIdx : Nat)
    (draws : List MutDraw) : Option Str :=
  (randomChoice st.population popIdx).map (fun c => draws.foldl mutate c)

/-- `add_seed`: `self.population.append(seed)`. Because `population` and
`seed` alias one list object (see `MyMutationFuzzer`), the append is
observable through both fields. -/
def MyMutationFuzzer.add_seed (st : MyMutationFuzzer) (c : Str) : MyMutationFuzzer :=
  { st with population := st.population ++ [c], seed := st.seed ++ [c] }

/-- `fuzz`: while the cursor is below the seed-list length, return the seed at
the cursor and advance it; otherwise return `create_candidate()`. The random
arguments are consumed only on the mutating branch. -/
def MyMutationFuzzer.fuzz (st : MyMutationFuzzer) (popIdx : Nat)
    (draws : List MutDraw) : Option Str × MyMutationFuzzer :=
  if st.seed_index < st.seed.length then
    (st.seed.get? st.seed_index, { st with seed_index := st.seed_index + 1 })
  else
    (st.create_candidate popIdx draws, st)

/-- Number of occurrences of `pat` as a substring of `s` (at distinct start
positions). -/
def countOcc (pat s : Str) : Nat :=
  ((List.range (s.length + 1)).filter (fun i => pat.isPrefixOf (s.drop i))).length

/-! ### Tokenizer round-trip -/

theorem flatten_tokFlush (st : TkSt) : (tokFlush st).flatten = st.done.flatten ++ st.cur := by
  unfold tokFlush
  by_cases h : st.cur = [] <;> simp [h]

theorem squote_not_whitespace : squote.isWhitespace = false := by decide

theorem tokStep_flatten (st : TkSt) (c : Char) (h : st.mode = none → st.cur = []) :
    (tokStep st c).done.flatten ++ (tokStep st c).cur = st.done.flatten ++ st.cur ++ [c] ∧
    ((tokStep st c).mode = none → (tokStep st c).cur = []) := by
  obtain ⟨done, cur, mode⟩ := st
  match mode with
  | none =>
    have hc : cur = [] := h rfl
    by_cases h1 : c.isWhitespace <;> by_cases h2 : c = squote <;>
      simp [tokStep, h1, h2, hc, squote_not_whitespace]
  | some TMode.ws =>
    by_cases h1 : c.isWhitespace <;> by_cases h2 : c = squote <;>
      simp [tokStep, h1, h2, squote_not_whitespace, List.append_assoc]
  | some TMode.word =>
    by_cases h1 : c.isWhitespace <;> by_cases h2 : c = squote <;>
      simp [tokStep, h1, h2, squote_not_whitespace, List.append_assoc]
  | some TMode.quo =>
    by_cases h2 : c = squote <;> simp [tokStep, h2, List.append_assoc]

theorem foldl_tokStep_flatten (s : Str) :
    ∀ st : TkSt, (st.mode = none → st.cur = []) →
      (tokFlush (s.foldl tokStep st)).flatten = st.done.flatten ++ st.cur ++ s := by
  induction s with
  | nil =>
    intro st _
    simp [flatten_tokFlush]
  | cons c cs ih =>
    intro st h
    have hs := tokStep_flatten st c h
    calc (tokFlush ((c :: cs).foldl tokStep st)).flatten
        = (tokFlush (cs.foldl tokStep (tokStep st c))).flatten := by
          simp [List.foldl_cons]
      _ = (tokStep st c).done.flatten ++ (tokStep st c).cur ++ cs := ih _ hs.2
      _ = (st.done.flatten ++ st.cur ++ [c]) ++ cs := by rw [hs.1]
      _ = st.done.flatten ++ st.cur ++ (c :: cs) := by simp [List.append_assoc]

/-- C5: for every string `s`, `untokenize(tokenize(s)) = s`; tokenizing the
empty string yields the empty token sequence and `untokenize([])` is the
empty string. -/
theorem untokenize_tokenize_roundtrip :
    (∀ s : Str, _unt (_tok s) = s) ∧ _tok [] = [] ∧ _unt ([] : List Str) = [] := by
  refine ⟨fun s => ?_, rfl, rfl⟩
  unfold _tok _unt
  have h := foldl_tokStep_flatten s ⟨[], [], none⟩ (fun _ => rfl)
  simpa using h

/-! ### Engine state-machine theorems -/

theorem get?_append_singleton (l : List α) (a : α) :
    (l ++ [a]).get? l.length = some a := by
  induction l with
  | nil => rfl
  | cons x xs ih => simp [ih]

/-- C1 (amended): `add_seed(c)` appends `c` to the end of the population,
growing it from size N to N+1 and making `c` selectable by a subsequent
`create_candidate`; because `population` and `seed` alias one list object,
the original seed list gains `c` as well; nothing else changes and no
deduplication or validation is performed. -/
theorem add_seed_appends (st : MyMutationFuzzer) (c : Str) :
    (st.add_seed c).population = st.population ++ [c]
    ∧ (st.add_seed c).population.length = st.population.length + 1
    ∧ randomChoice (st.add_seed c).population st.population.length = some c
    ∧ (st.add_seed c).create_candidate st.population.length [] = some c
    ∧ (st.add_seed c).seed = st.seed ++ [c]
    ∧ (st.add_seed c).seed_index = st.seed_index
    ∧ (st.add_seed c).min_mutations = st.min_mutations
    ∧ (st.add_seed c).max_mutations = st.max_mutations := by
  refine ⟨rfl, by simp [MyMutationFuzzer.add_seed], ?_, ?_, rfl, rfl, rfl, rfl⟩
  · unfold randomChoice MyMutationFuzzer.add_seed
    simp [get?_append_singleton]
  · unfold MyMutationFuzzer.create_candidate randomChoice MyMutationFuzzer.add_seed
    simp [get?_append_singleton]

/-- C1 counterexample: after `add_seed("b")` on an engine built from
`["a"]`, the seed list is `["a", "b"]` — the original seed list did not
stay unchanged, because `population` aliases `seed`. -/
theorem add_seed_changes_seed_list :
    ((MyMutationFuzzer.init ["a".data] 2 10).add_seed "b".data).seed
        = ["a".data, "b".data]
    ∧ ((MyMutationFuzzer.init ["a".data] 2 10).add_seed "b".data).seed
        ≠ (MyMutationFuzzer.init ["a".data] 2 10).seed := by
  decide

/-- C2 counterexample: seed list `["a"]`; after one `fuzz()` the cursor
equals the seed-list length (Mutating); `add_seed("b")` grows the aliased
seed list, so the cursor is again strictly below it (back to Seeding), and
the next `fuzz()` returns the stored seed `"b"` by cursor, advancing the
cursor to 2. -/
theorem mutating_reenters_seeding :
    ((((MyMutationFuzzer.init ["a".data] 2 10).fuzz 0 []).2).seed_index
        = (((MyMutationFuzzer.init ["a".data] 2 10).fuzz 0 []).2).seed.length)
    ∧ ((((MyMutationFuzzer.init ["a".data] 2 10).fuzz 0 []).2.add_seed "b".data).seed_index
        < (((MyMutationFuzzer.init ["a".data] 2 10).fuzz 0 []).2.add_seed "b".data).seed.length)
    ∧ (((((MyMutationFuzzer.init ["a".data] 2 10).fuzz 0 []).2.add_seed "b".data).fuzz 0 []).1
        = some "b".data)
    ∧ (((((MyMutationFuzzer.init ["a".data] 2 10).fuzz 0 []).2.add_seed "b".data).fuzz 0 []).2.seed_index
        = 2) := by
  decide

/-- C2 (amended): the seeding cursor is monotone under `fuzz` and never
exceeds the seed-list length, and `add_seed` keeps it bounded; but the
transition to Mutating is not one-way: when the cursor equals the seed-list
length, an `add_seed(c)` grows the aliased seed list and the next `fuzz`
returns the stored seed `c` by cursor again. -/
theorem cursor_monotone_and_reentry (st : MyMutationFuzzer) (c : Str)
    (popIdx : Nat) (draws : List MutDraw)
    (hinv : st.seed_index ≤ st.seed.length) :
    st.seed_index ≤ (st.fuzz popIdx draws).2.seed_index
    ∧ (st.fuzz popIdx draws).2.seed_index ≤ (st.fuzz popIdx draws).2.seed.length
    ∧ (st.add_seed c).seed_index ≤ (st.add_seed c).seed.length
    ∧ (st.seed_index = st.seed.length →
        ((st.add_seed c).fuzz popIdx draws).1 = some c) := by
  refine ⟨?_, ?_, ?_, fun hex => ?_⟩
  · by_cases h : st.seed_index < st.seed.length <;> simp [MyMutationFuzzer.fuzz, h]
  · by_cases h : st.seed_index < st.seed.length <;> simp [MyMutationFuzzer.fuzz, h]
    · omega
    · exact hinv
  · simp [MyMutationFuzzer.add_seed]
    omega
  · have hlt : (st.add_seed c).seed_index < (st.add_seed c).seed.length := by
      simp [MyMutationFuzzer.add_seed, hex]
    simp [MyMutationFuzzer.fuzz, hlt, MyMutationFuzzer.add_seed, hex,
      get?_append_singleton]

/-- C2 witness: the amended statement at the exhausted one-seed engine. -/
theorem cursor_monotone_and_reentry_witness :
    ((((MyMutationFuzzer.init ["a".data] 2 10).fuzz 0 []).2).seed_index
        ≤ ((((MyMutationFuzzer.init ["a".data] 2 10).fuzz 0 []).2).fuzz 0 []).2.seed_index)
    ∧ (((((MyMutationFuzzer.init ["a".data] 2 10).fuzz 0 []).2).fuzz 0 []).2.seed_index
        ≤ ((((MyMutationFuzzer.init ["a".data] 2 10).fuzz 0 []).2).fuzz 0 []).2.seed.length)
    ∧ ((((MyMutationFuzzer.init ["a".data] 2 10).fuzz 0 []).2.add_seed "b".data).seed_index
        ≤ (((MyMutationFuzzer.init ["a".data] 2 10).fuzz 0 []).2.add_seed "b".data).seed.length)
    ∧ ((((MyMutationFuzzer.init ["a".data] 2 10).fuzz 0 []).2.seed_index
          = (((MyMutationFuzzer.init ["a".data] 2 10).fuzz 0 []).2).seed.length) →
        ((((MyMutationFuzzer.init ["a".data] 2 10).fuzz 0 []).2.add_seed "b".data).fuzz 0 []).1
          = some "b".data) :=
  cursor_monotone_and_reentry ((MyMutationFuzzer.init ["a".data] 2 10).fuzz 0 []).2
    "b".data 0 [] (by decide)

/-- C3: evaluation of the constructor at the configurations the claim says
must be rejected: with an empty seed list, and with
`max_mutations < min_mutations`, construction succeeds and produces an
instance (the source performs no validation; there is no
InvalidConfiguration condition anywhere in it), and the empty-population
misconfiguration only surfaces later, as a failing `fuzz()` call. -/
theorem init_performs_no_validation :
    (MyMutationFuzzer.init [] 2 10).population = []
    ∧ (MyMutationFuzzer.init [] 2 10).seed = []
    ∧ ((MyMutationFuzzer.init [] 2 10).fuzz 0 []).1 = none
    ∧ (MyMutationFuzzer.init ["a".data] 10 2).min_mutations = 10
    ∧ (MyMutationFuzzer.init ["a".data] 10 2).max_mutations = 2
    ∧ (MyMutationFuzzer.init ["a".data] 10 2).population = ["a".data] := by
  decide

/-- C6: while the cursor is strictly below the seed-list length, `fuzz`
returns the seed at the cursor and advances the cursor by exactly one,
leaving seed list and population untouched; once the cursor has reached the
seed-list length, `fuzz` returns `create_candidate()` and changes nothing. -/
theorem fuzz_seeding_step (st : MyMutationFuzzer) (popIdx : Nat)
    (draws : List MutDraw) :
    (st.seed_index < st.seed.length →
      ((st.fuzz popIdx draws).1 = st.seed.get? st.seed_index
        ∧ (st.fuzz popIdx draws).2.seed_index = st.seed_index + 1
        ∧ (st.fuzz popIdx draws).2.seed = st.seed
        ∧ (st.fuzz popIdx draws).2.population = st.population))
    ∧ (¬ st.seed_index < st.seed.length →
      ((st.fuzz popIdx draws).1 = st.create_candidate popIdx draws
        ∧ (st.fuzz popIdx draws).2 = st)) := by
  constructor <;> intro h <;> simp [MyMutationFuzzer.fuzz, h]

/-- C6 witness: seed list `["SELECT 1"]`, cursor 0 — `fuzz()` returns
`"SELECT 1"` and the cursor becomes 1. -/
theorem fuzz_seeding_step_witness :
    ((MyMutationFuzzer.init ["SELECT 1".data] 2 10).fuzz 0 []).1
        = some "SELECT 1".data
    ∧ ((MyMutationFuzzer.init ["SELECT 1".data] 2 10).fuzz 0 []).2.seed_index = 1 := by
  have h := (fuzz_seeding_step (MyMutationFuzzer.init ["SELECT 1".data] 2 10) 0 []).1
    (by decide)
  exact ⟨h.1.trans (by decide), by rw [h.2.1]; decide⟩

/-- C7: `create_candidate` picks the population member at the drawn index,
applies exactly `draws.length` mutation operators in sequence — the trial
count draw ranges over `[min_mutations, max_mutations]` inclusive — each
application being one of exactly the three generic mutators and feeding its
output to the next application, and returns the final string. -/
theorem create_candidate_chains_generic_mutators (st : MyMutationFuzzer)
    (popIdx : Nat) (draws : List MutDraw)
    (hpi : popIdx < st.population.length)
    (_hmin : st.min_mutations ≤ draws.length)
    (_hmax : draws.length ≤ st.max_mutations) :
    st.create_candidate popIdx draws
        = some (draws.foldl mutate (st.population.get ⟨popIdx, hpi⟩))
    ∧ (∀ (inp : Str) (d : MutDraw) (ds : List MutDraw),
        List.foldl mutate inp (d :: ds) = List.foldl mutate (mutate inp d) ds)
    ∧ (∀ (inp : Str) (d : MutDraw),
        (∃ p, mutate inp d = delete_random_character inp p)
        ∨ (∃ p c, mutate inp d = insert_random_character inp p c)
        ∨ (∃ p b, mutate inp d = flip_random_character inp p b)) := by
  refine ⟨?_, fun inp d ds => rfl, fun inp d => ?_⟩
  · unfold MyMutationFuzzer.create_candidate randomChoice
    rw [List.get?_eq_get hpi]
    rfl
  · cases d with
    | del p => exact Or.inl ⟨p, rfl⟩
    | ins p c => exact Or.inr (Or.inl ⟨p, c, rfl⟩)
    | flip p b => exact Or.inr (Or.inr ⟨p, b, rfl⟩)

/-- C7 witness: with the default configuration (2–10 mutations) on seed
`["ab"]`, two deletion draws produce the empty string. -/
theorem create_candidate_chains_generic_mutators_witness :
    (MyMutationFuzzer.initDefault ["ab".data]).create_candidate 0
        [MutDraw.del 0, MutDraw.del 0] = some [] := by
  have h := create_candidate_chains_generic_mutators
    (MyMutationFuzzer.initDefault ["ab".data]) 0 [MutDraw.del 0, MutDraw.del 0]
    (by decide) (by decide) (by decide)
  exact h.1.trans (by decide)

/-- C10: constructing the engine with an empty seed list succeeds (no check
is performed; the instance carries the given configuration), the cursor 0
already equals the seed-list length 0 (Mutating from the start), and the
first `fuzz()` fails — `create_candidate` makes a uniform random choice from
the empty population, which raises. -/
theorem empty_seed_starts_mutating (mn mx popIdx : Nat) (draws : List MutDraw) :
    (MyMutationFuzzer.init [] mn mx).seed_index
        = (MyMutationFuzzer.init [] mn mx).seed.length
    ∧ (MyMutationFuzzer.init [] mn mx).population = []
    ∧ (MyMutationFuzzer.init [] mn mx).min_mutations = mn
    ∧ (MyMutationFuzzer.init [] mn mx).max_mutations = mx
    ∧ ((MyMutationFuzzer.init [] mn mx).fuzz popIdx draws).1 = none
    ∧ (MyMutationFuzzer.init [] mn mx).create_candidate popIdx draws = none := by
  refine ⟨rfl, rfl, rfl, rfl, ?_, ?_⟩ <;>
    simp [MyMutationFuzzer.fuzz, MyMutationFuzzer.init, MyMutationFuzzer.reset,
      MyMutationFuzzer.create_candidate, randomChoice]

/-! ### Mutator totality / no-op theorems -/

/-- C4: every mutator is a total function on strings (each embedded operator
returns a string on every input); the inapplicable cases return the input
unchanged — `delete`/`flip` on the empty string, `replace_sql_token` with no
content token, `duplicate_sql_clause` with no keyword token,
`shuffle_sql_tokens` with fewer than two content tokens — while
`insert_random_character` always succeeds, growing the string by one. -/
theorem mutators_noop_on_inapplicable (s : Str) (pos code bit j jp ins a b : Nat)
    (d : RDraw) (perm : List Nat) :
    delete_random_character [] pos = []
    ∧ flip_random_character [] pos bit = []
    ∧ (insert_random_character s pos code).length = s.length + 1
    ∧ (nonWsIndices (_tok s) = [] → replace_sql_token s j d = s)
    ∧ (kwIndices (_tok s) = [] → duplicate_sql_clause s jp ins = s)
    ∧ ((nonWsIndices (_tok s)).length < 2 → shuffle_sql_tokens s a b perm = s) := by
  refine ⟨rfl, rfl, ?_, fun h => ?_, fun h => ?_, fun h => ?_⟩
  · simp [insert_random_character]
    omega
  · simp [replace_sql_token, h]
  · simp [duplicate_sql_clause, h]
  · unfold shuffle_sql_tokens
    rw [if_pos h]

/-- C4 witness: the whitespace-only string has no content tokens, so all
three SQL-aware mutators are no-ops on it; delete/flip are no-ops on the
empty string; insertion grows it by one. -/
theorem mutators_noop_on_inapplicable_witness :
    delete_random_character [] 1 = []
    ∧ flip_random_character [] 1 2 = []
    ∧ (insert_random_character "  ".data 1 65).length = "  ".data.length + 1
    ∧ replace_sql_token "  ".data 0 ⟨0, 0, true, 1, 0⟩ = "  ".data
    ∧ duplicate_sql_clause "  ".data 0 0 = "  ".data
    ∧ shuffle_sql_tokens "  ".data 0 1 [] = "  ".data := by
  obtain ⟨h1, h2, h3, h4, h5, h6⟩ := mutators_noop_on_inapplicable "  ".data 1 65 2
    0 0 0 0 1 ⟨0, 0, true, 1, 0⟩ []
  exact ⟨h1, h2, h3, h4 (by decide), h5 (by decide), h6 (by decide)⟩

/-! ### Keyword replacement and clause duplication -/

theorem getD_mem_of_lt (l : List α) (k : Nat) (dflt : α) (h : k < l.length) :
    l.getD k dflt ∈ l := by
  rw [List.getD_eq_getElem l dflt h]
  exact List.getElem_mem h

/-- C8 counterexample: on input `"SELECT"` the draw that picks the content
token 0 (a keyword) and keyword-pool index 0 is legal, yet the replacement is
`"SELECT"` itself — the source draws `random.choice(_SQL_KW)` without
excluding the original keyword, so the token is not always replaced by a
different keyword. -/
theorem replace_keyword_not_different :
    replace_sql_token "SELECT".data 0 ⟨0, 0, true, 1, 0⟩ = "SELECT".data
    ∧ nonWsIndices (_tok "SELECT".data) = [0]
    ∧ _SQL_KW.contains (pyUpper "SELECT".data) = true
    ∧ _SQL_KW.getD 0 [] = "SELECT".data
    ∧ 0 < _SQL_KW.length := by
  decide

/-- C8 (amended): when `replace_sql_token` selects a content token whose
case-insensitive text is in the SQL keyword set, it overwrites it with the
uniformly drawn keyword — possibly the very same keyword, since the draw does
not exclude the original — preserving the original token's case style: an
all-uppercase token receives the (all-uppercase) keyword as drawn, any other
token receives it lowercased. -/
theorem replace_keyword_case_preserving (s : Str) (j i : Nat) (d : RDraw)
    (hj : (nonWsIndices (_tok s))[j]? = some i)
    (ht : pyUpper ((_tok s)[i]?.getD []) ∈ _SQL_KW)
    (hk : d.kwIdx < _SQL_KW.length) :
    replace_sql_token s j d
        = _unt ((_tok s).set i
            (if pyIsUpper ((_tok s)[i]?.getD []) then _SQL_KW.getD d.kwIdx []
             else pyLower (_SQL_KW.getD d.kwIdx [])))
    ∧ _SQL_KW.getD d.kwIdx [] ∈ _SQL_KW
    ∧ pyIsUpper (_SQL_KW.getD d.kwIdx []) = true
    ∧ pyIsLower (pyLower (_SQL_KW.getD d.kwIdx [])) = true := by
  have hmem : _SQL_KW.getD d.kwIdx [] ∈ _SQL_KW := getD_mem_of_lt _ _ _ hk
  have hup : ∀ x ∈ _SQL_KW, pyIsUpper x = true := by decide
  have hlo : ∀ x ∈ _SQL_KW, pyIsLower (pyLower x) = true := by decide
  exact ⟨by simp [replace_sql_token, hj, ht], hmem, hup _ hmem, hlo _ hmem⟩

/-- C8 witness: on `"Select"` (not all-uppercase) with keyword draw 1, the
selected keyword token is overwritten by the lowercased drawn keyword. -/
theorem replace_keyword_case_preserving_witness :
    replace_sql_token "Select".data 0 ⟨1, 0, true, 1, 0⟩
        = _unt ((_tok "Select".data).set 0
            (if pyIsUpper ((_tok "Select".data)[0]?.getD []) then _SQL_KW.getD 1 []
             else pyLower (_SQL_KW.getD 1 [])))
    ∧ _SQL_KW.getD 1 [] ∈ _SQL_KW
    ∧ pyIsUpper (_SQL_KW.getD 1 []) = true
    ∧ pyIsLower (pyLower (_SQL_KW.getD 1 [])) = true :=
  replace_keyword_case_preserving "Select".data 0 0 ⟨1, 0, true, 1, 0⟩
    (by decide) (by decide) (by decide)

/-- C9 counterexample: `duplicate_sql_clause("SELECT * FROM t")` with the
legal draws (keyword pick 0, insertion position 1) inserts `"SELECT "` right
after the token `"SELECT"`; the texts concatenate to
`"SELECTSELECT  * FROM t"`, whose token sequence contains zero tokens whose
case-insensitive text is `"SELECT"` — not two. -/
theorem duplicate_select_fuses :
    duplicate_sql_clause "SELECT * FROM t".data 0 1 = "SELECTSELECT  * FROM t".data
    ∧ ((_tok (duplicate_sql_clause "SELECT * FROM t".data 0 1)).filter
        (fun t => pyUpper t == "SELECT".data)).length = 0
    ∧ 0 < (kwIndices (_tok "SELECT * FROM t".data)).length
    ∧ 1 ≤ (_tok "SELECT * FROM t".data).length := by
  decide

/-- C9 (amended): for every outcome of the random draws,
`duplicate_sql_clause("SELECT * FROM t")` yields a string containing exactly
two case-insensitive occurrences of `"SELECT"` as substrings — though not
necessarily as standalone tokens, since the inserted duplicate can fuse with
an adjacent token. -/
theorem duplicate_select_two_occurrences (j insPos : Nat)
    (hj : j < (kwIndices (_tok "SELECT * FROM t".data)).length)
    (hp : insPos ≤ (_tok "SELECT * FROM t".data).length) :
    countOcc "SELECT".data
      (pyUpper (duplicate_sql_clause "SELECT * FROM t".data j insPos)) = 2 := by
  have hj0 : j = 0 := by
    have hlen : (kwIndices (_tok "SELECT * FROM t".data)).length = 1 := by decide
    omega
  have hp7 : insPos ≤ 7 := by
    have hlen : (_tok "SELECT * FROM t".data).length = 7 := by decide
    omega
  subst hj0
  interval_cases insPos <;> decide

/-- C9 witness: the amended statement at insertion position 0. -/
theorem duplicate_select_two_occurrences_witness :
    countOcc "SELECT".data
      (pyUpper (duplicate_sql_clause "SELECT * FROM t".data 0 0)) = 2 :=
  duplicate_select_two_occurrences 0 0 (by decide) (by decide)
